import Mathlib

/-!
# PIXIE — verification of the orchestration and geometry engine

A shallow embedding of the PIXIE image batch-transformation pipeline
(`src/core/*.rs`, `src/processors/*.rs`) together with theorems settling the
specification claims.

Modelling conventions:
* Rust `u32`/`u64`/`usize` values are modelled as `Nat` (the code never relies
  on wrap-around in the fragments embedded here).
* Rust `f32` computations in the geometry engine are modelled exactly over `ℚ`;
  `f32::round` (round half away from zero) agrees with Mathlib's `round`
  (round half up) on the non-negative values arising here.
* Fallible Rust functions returning `Result<T, ImageToolError>` are modelled as
  `Except ImageToolError T`; a Rust `&mut` argument that a function may update
  is modelled by returning the (possibly) updated value.
* External collaborators (the filesystem, the `image` codec crate, `walkdir`,
  `rayon`, `oxipng`, `exif`) are out of scope per the specification §1/§6 and
  are modelled as an explicit oracle record `Env` threaded through the
  pipeline; theorems quantify over all oracles.
-/

namespace Pixie

/-- Rounding used by the geometry engine: the exact-arithmetic reading of
`(x : f32).round() as u32` for non-negative `x` (round half away from zero,
then truncate to an unsigned integer). -/
def rnd (q : ℚ) : Nat := (round q).toNat

/-- `core/mod.rs`: `ResizeAlgorithm`. -/
inductive ResizeAlgorithm where
  | Nearest
  | Bilinear
  | Bicubic
  | Lanczos3
deriving DecidableEq, Repr

/-- A decoded pixel buffer (`image::DynamicImage`), opaque except for its
dimensions: `data` stands for the pixel contents. -/
structure Image where
  width : Nat
  height : Nat
  data : List Nat
deriving DecidableEq, Repr

/-- `processors/resizer.rs`: `ResizeMode`. -/
inductive ResizeMode where
  | Absolute : Nat → Nat → ResizeMode
  | Scale : ℚ → ResizeMode
  | Width : Nat → ResizeMode
  | Height : Nat → ResizeMode
deriving DecidableEq, Repr

/-- `processors/resizer.rs`: `Resizer` (the `algorithm` field only selects the
resample filter, which lives behind the codec boundary). -/
structure Resizer where
  algorithm : ResizeAlgorithm
  keep_aspect : Bool
deriving DecidableEq, Repr

/-- `processors/resizer.rs`: `Resizer::new`. -/
def Resizer.new (algorithm : ResizeAlgorithm) (keep_aspect : Bool) : Resizer :=
  { algorithm := algorithm, keep_aspect := keep_aspect }

/-- `processors/resizer.rs`: `Resizer::preserve_aspect`. -/
def Resizer.preserve_aspect (orig_w orig_h target_w target_h : Nat) : Nat × Nat :=
  if target_w = 0 ∧ target_h = 0 then
    (orig_w, orig_h)
  else if target_w = 0 then
    let ratio : ℚ := (target_h : ℚ) / (orig_h : ℚ)
    let width : Nat := rnd ((orig_w : ℚ) * ratio)
    (max width 1, target_h)
  else if target_h = 0 then
    let ratio : ℚ := (target_w : ℚ) / (orig_w : ℚ)
    let height : Nat := rnd ((orig_h : ℚ) * ratio)
    (target_w, max height 1)
  else
    let ratio_w : ℚ := (target_w : ℚ) / (orig_w : ℚ)
    let ratio_h : ℚ := (target_h : ℚ) / (orig_h : ℚ)
    let ratio : ℚ := min ratio_w ratio_h
    let new_w : Nat := rnd ((orig_w : ℚ) * ratio)
    let new_h : Nat := rnd ((orig_h : ℚ) * ratio)
    (max new_w 1, max new_h 1)

/-- `processors/resizer.rs`: `Resizer::calculate_dimensions`. -/
def Resizer.calculate_dimensions (self : Resizer) (image : Image) (mode : ResizeMode) :
    Nat × Nat :=
  let orig_width := image.width
  let orig_height := image.height
  match mode with
  | .Absolute w h =>
      if w = 0 ∧ h = 0 then
        (orig_width, orig_height)
      else if self.keep_aspect then
        Resizer.preserve_aspect orig_width orig_height w h
      else
        ((if w = 0 then orig_width else w), (if h = 0 then orig_height else h))
  | .Scale scale =>
      if scale ≤ 0 then
        (orig_width, orig_height)
      else
        let new_width := rnd ((orig_width : ℚ) * scale / 100)
        let new_height := rnd ((orig_height : ℚ) * scale / 100)
        (max new_width 1, max new_height 1)
  | .Width width =>
      if width = 0 ∨ width = orig_width then
        (orig_width, orig_height)
      else
        let ratio : ℚ := (width : ℚ) / (orig_width : ℚ)
        let height := rnd ((orig_height : ℚ) * ratio)
        (width, max height 1)
  | .Height height =>
      if height = 0 ∨ height = orig_height then
        (orig_width, orig_height)
      else
        let ratio : ℚ := (height : ℚ) / (orig_height : ℚ)
        let width := rnd ((orig_width : ℚ) * ratio)
        (max width 1, height)

/-- `processors/resizer.rs`: `Resizer::resize`.  The actual resampling
(`image.resize` / `image.resize_exact` of the codec crate) is behind the codec
boundary and passed in as the oracles `resampleFit` / `resampleExact`. -/
def Resizer.resize (self : Resizer) (resampleFit resampleExact : Image → Nat → Nat → Image)
    (image : Image) (mode : ResizeMode) : Image :=
  let wh := self.calculate_dimensions image mode
  if wh.1 = image.width ∧ wh.2 = image.height then
    image
  else if self.keep_aspect then
    resampleFit image wh.1 wh.2
  else
    resampleExact image wh.1 wh.2

/-- `processors/resizer.rs`: `Resizer::calculate_mode_from_config`. -/
def Resizer.calculate_mode_from_config (width height : Nat) (scale : ℚ) : ResizeMode :=
  if 0 < scale then
    .Scale scale
  else if 0 < width ∧ 0 < height then
    .Absolute width height
  else if 0 < width then
    .Width width
  else if 0 < height then
    .Height height
  else
    .Absolute 0 0

/-- `core/mod.rs`: `ImageToolError` (the `Io` and `Image` constructors carry
the rendered message of the wrapped foreign error). -/
inductive ImageToolError where
  | Io : String → ImageToolError
  | Image : String → ImageToolError
  | InvalidParameter : String → ImageToolError
  | UnsupportedFormat : String → ImageToolError
  | ProcessingError : String → ImageToolError
  | SecurityError : String → ImageToolError
  | MemoryLimitExceeded : String → ImageToolError
deriving DecidableEq, Repr

/-- The `thiserror`-derived `Display` rendering used by `e.to_string()`. -/
def ImageToolError.toString : ImageToolError → String
  | .Io s => "IO error: " ++ s
  | .Image s => "Image error: " ++ s
  | .InvalidParameter s => "Invalid parameter: " ++ s
  | .UnsupportedFormat s => "Unsupported format: " ++ s
  | .ProcessingError s => "Processing error: " ++ s
  | .SecurityError s => "Security error: " ++ s
  | .MemoryLimitExceeded s => "Memory limit exceeded: " ++ s

/-- `core/mod.rs`: `ProcessingStats`. -/
structure ProcessingStats where
  processed_count : Nat := 0
  total_size_before : Nat := 0
  total_size_after : Nat := 0
  errors : List (String × String) := []
deriving DecidableEq, Repr

/-- `core/mod.rs`: `OutputFormat`. -/
inductive OutputFormat where
  | Jpeg
  | Png
  | WebP
  | SameAsInput
deriving DecidableEq, Repr

/-- `core/mod.rs`: `ProcessConfig`. -/
structure ProcessConfig where
  width : Nat
  height : Nat
  scale : ℚ
  quality : Nat
  keep_aspect : Bool
  strip_metadata : Bool
  algorithm : ResizeAlgorithm
  max_file_size : Option Nat
  format : Option OutputFormat
deriving DecidableEq, Repr

/-- `core/mod.rs`: `ProcessConfig::default`. -/
def ProcessConfig.base : ProcessConfig :=
  { width := 0
    height := 0
    scale := 0
    quality := 85
    keep_aspect := true
    strip_metadata := false
    algorithm := .Lanczos3
    max_file_size := none
    format := none }

/-- Model of the codec crate's `image::ImageFormat`, closed to the formats the
repository names. -/
inductive ImageFormat where
  | Jpeg
  | Png
  | WebP
  | Gif
  | Bmp
  | Tiff
  | Other
deriving DecidableEq, Repr

/-- `needle` occurs at the start of the character list. -/
def runStarts : List Char → List Char → Bool
  | [], _ => true
  | _ :: _, [] => false
  | n :: ns, h :: hs => n == h && runStarts ns hs

/-- `needle` occurs contiguously somewhere in the character list. -/
def runInside (ns : List Char) : List Char → Bool
  | [] => ns.isEmpty
  | c :: t => runStarts ns (c :: t) || runInside ns t

/-- `str::contains` for a literal pattern on the textual form of a path. -/
def strContains (needle hay : String) : Bool :=
  runInside needle.data hay.data

/-- The check `path.to_string_lossy().contains("..")` used by both
`ImageProcessor::validate_paths` and `BatchProcessor::validate_paths`. -/
def hasDotDot (s : String) : Bool :=
  strContains ".." s

/-- Oracle for the external collaborators of spec §6: the filesystem, the
codec crate (`image`), the directory walker (`walkdir`).  Processing reads it
but never updates it; the effect of writing the output file is folded into
`encode`, which returns the byte size the written file ends up with. -/
structure Env where
  exists_ : String → Bool
  isDir : String → Bool
  size : String → Nat
  decode : String → Except String Image
  resampleFit : Image → Nat → Nat → Image
  resampleExact : Image → Nat → Nat → Image
  detectFormat : String → Except String ImageFormat
  encode : Image → String → ImageFormat → Nat → Except ImageToolError Nat
  walkFiles : String → Bool → List String

/-- `processors/loader.rs`: `Loader`. -/
structure Loader where
  max_dimensions : Option (Nat × Nat)
deriving DecidableEq, Repr

/-- `processors/loader.rs`: `Loader::new`. -/
def Loader.new : Loader :=
  { max_dimensions := some (100000, 100000) }

/-- `processors/loader.rs`: `Loader::validate_path`. -/
def Loader.validate_path (env : Env) (path : String) : Except ImageToolError Unit :=
  if !env.exists_ path then
    .error (.InvalidParameter ("File does not exist: " ++ path))
  else if env.size path = 0 then
    .error (.InvalidParameter ("File is empty: " ++ path))
  else
    .ok ()

/-- `processors/loader.rs`: `Loader::load` (decode delegated to `env.decode`). -/
def Loader.load (self : Loader) (env : Env) (path : String) : Except ImageToolError Image :=
  match Loader.validate_path env path with
  | .error e => .error e
  | .ok _ =>
    match env.decode path with
    | .error e => .error (.ProcessingError ("Failed to decode image: " ++ e))
    | .ok image =>
      match self.max_dimensions with
      | some (max_w, max_h) =>
          if image.width > max_w ∨ image.height > max_h then
            .error (.MemoryLimitExceeded
              ("Image dimensions " ++ toString image.width ++ "x" ++ toString image.height ++
               " exceed maximum " ++ toString max_w ++ "x" ++ toString max_h))
          else
            .ok image
      | none => .ok image

/-- `processors/loader.rs`: `Loader::detect_format`
(`image::ImageFormat::from_path` delegated to `env.detectFormat`). -/
def Loader.detect_format (env : Env) (path : String) : Except ImageToolError ImageFormat :=
  match env.detectFormat path with
  | .ok format => .ok format
  | .error _ => .error (.ProcessingError ("Failed to detect format for: " ++ path))

/-- `processors/metadata.rs`: `MetadataProcessor` (stateless). -/
structure MetadataProcessor where
deriving DecidableEq, Repr

/-- `processors/metadata.rs`: `MetadataProcessor::new`. -/
def MetadataProcessor.new : MetadataProcessor := {}

/-- `processors/metadata.rs`: `MetadataProcessor::strip_metadata`.  The Rust
body only logs and returns `Ok(())`, never touching the `&mut DynamicImage`;
the `&mut` is modelled by returning the buffer. -/
def MetadataProcessor.strip_metadata (_self : MetadataProcessor) (image : Image)
    (_path : String) : Except ImageToolError Image :=
  .ok image

/-- `processors/compressor.rs`: `Compressor`. -/
structure Compressor where
  quality : Nat
  optimize_png : Bool
  progressive_jpeg : Bool
deriving DecidableEq, Repr

/-- `processors/compressor.rs`: `Compressor::new` (`quality.clamp(1, 100)`). -/
def Compressor.new (quality : Nat) : Compressor :=
  { quality := min (max quality 1) 100
    optimize_png := true
    progressive_jpeg := false }

/-- `processors/compressor.rs`: `Compressor::save_with_format`.  Encoding and
writing are entirely behind the codec boundary; the oracle returns the byte
size of the written output (which `process_single` re-stats afterwards). -/
def Compressor.save_with_format (self : Compressor) (env : Env) (image : Image)
    (path : String) (format : ImageFormat) : Except ImageToolError Nat :=
  env.encode image path format self.quality

/-- `core/processor.rs`: `ImageProcessor`. -/
structure ImageProcessor where
  config : ProcessConfig
  loader : Loader
  resizer : Resizer
  compressor : Compressor
  metadata_processor : MetadataProcessor

/-- `core/processor.rs`: `ImageProcessor::new`. -/
def ImageProcessor.new (config : ProcessConfig) : ImageProcessor :=
  { config := config
    loader := Loader.new
    resizer := Resizer.new config.algorithm config.keep_aspect
    compressor := Compressor.new config.quality
    metadata_processor := MetadataProcessor.new }

/-- `core/processor.rs`: `ImageProcessor::validate_paths`.  The trailing
`fs::create_dir_all(parent)` only creates the output's parent directories and
is modelled as succeeding. -/
def ImageProcessor.validate_paths (env : Env) (input_path output_path : String) :
    Except ImageToolError Unit :=
  if hasDotDot input_path then
    .error (.SecurityError "Path traversal detected in input path")
  else if hasDotDot output_path then
    .error (.SecurityError "Path traversal detected in output path")
  else if !env.exists_ input_path then
    .error (.InvalidParameter ("Input file does not exist: " ++ input_path))
  else
    .ok ()

/-- `core/processor.rs`: `ImageProcessor::process_single`. -/
def ImageProcessor.process_single (self : ImageProcessor) (env : Env)
    (input_path output_path : String) : Except ImageToolError ProcessingStats :=
  match ImageProcessor.validate_paths env input_path output_path with
  | .error e => .error e
  | .ok _ =>
    let original_size := env.size input_path
    let gate : Except ImageToolError Unit :=
      match self.config.max_file_size with
      | some max_size =>
          if original_size > max_size then
            .error (.MemoryLimitExceeded
              ("File size " ++ toString original_size ++ " exceeds limit " ++ toString max_size))
          else .ok ()
      | none => .ok ()
    match gate with
    | .error e => .error e
    | .ok _ =>
      match self.loader.load env input_path with
      | .error e => .error e
      | .ok image0 =>
        let stripped : Except ImageToolError Image :=
          if self.config.strip_metadata then
            self.metadata_processor.strip_metadata image0 input_path
          else
            .ok image0
        match stripped with
        | .error e => .error e
        | .ok image1 =>
          let image2 :=
            if self.config.width > 0 ∨ self.config.height > 0 ∨ self.config.scale > 0 then
              let mode :=
                if self.config.scale > 0 then
                  ResizeMode.Scale self.config.scale
                else
                  ResizeMode.Absolute self.config.width self.config.height
              self.resizer.resize env.resampleFit env.resampleExact image1 mode
            else
              image1
          let formatRes : Except ImageToolError ImageFormat :=
            match self.config.format with
            | some .Jpeg => .ok .Jpeg
            | some .Png => .ok .Png
            | some .WebP => .ok .WebP
            | _ => Loader.detect_format env input_path
          match formatRes with
          | .error e => .error e
          | .ok output_format =>
            match self.compressor.save_with_format env image2 output_path output_format with
            | .error e => .error e
            | .ok new_size =>
              .ok { processed_count := 1
                    total_size_before := original_size
                    total_size_after := new_size
                    errors := [] }

/-- Split a character list at every occurrence of `sep`. -/
def splitChar (sep : Char) : List Char → List (List Char)
  | [] => [[]]
  | c :: t =>
      match splitChar sep t with
      | [] => [[c]]
      | r :: rs => if c == sep then [] :: r :: rs else (c :: r) :: rs

/-- The last `/`-separated component of a path string, standing in for
`std::path::Path::file_name` on the well-formed file paths the batch driver
builds (directory entries, which never end in a separator or in `..`). -/
def lastComponent (path : String) : String :=
  .mk (((splitChar '/' path.data).getLast?).getD [])

/-- `std::path::Path::extension`: the part of the file name after its last
`.`, absent when the name has no dot or is a dot-file such as `.bashrc`. -/
def fileExtension (path : String) : Option String :=
  match splitChar '.' (lastComponent path).data with
  | [] => none
  | [_] => none
  | first :: rest =>
      if first.isEmpty ∧ rest.length = 1 then none
      else (rest.getLast?).map fun l => String.mk l

/-- ASCII lower-casing of one character (`str::to_lowercase` restricted to the
ASCII extension strings compared here). -/
def charToLower (c : Char) : Char :=
  if 'A' ≤ c ∧ c ≤ 'Z' then Char.ofNat (c.toNat + 32) else c

/-- ASCII lower-casing (`ext.to_lowercase()`). -/
def strToLower (s : String) : String :=
  .mk (s.data.map charToLower)

/-- `processors/batch.rs`: the recognized-extension allow-list. -/
def image_extensions : List String :=
  ["jpg", "jpeg", "png", "gif", "bmp", "tiff", "tif", "webp"]

/-- `processors/batch.rs`: `BatchProcessor` (the `rayon` thread pool lives
behind the concurrency boundary and carries no processing state). -/
structure BatchProcessor where
  config : ProcessConfig
  max_threads : Nat

/-- `processors/batch.rs`: `BatchProcessor::new`, with thread-pool
construction — an external `rayon` concern — modelled as succeeding. -/
def BatchProcessor.new (config : ProcessConfig) (max_threads : Nat) : BatchProcessor :=
  { config := config, max_threads := max_threads }

/-- `processors/batch.rs`: `BatchProcessor::validate_paths`. -/
def BatchProcessor.validate_paths (env : Env) (input_dir output_dir : String) :
    Except ImageToolError Unit :=
  if hasDotDot input_dir then
    .error (.SecurityError "Path traversal detected in input path")
  else if hasDotDot output_dir then
    .error (.SecurityError "Path traversal detected in output path")
  else if !env.exists_ input_dir then
    .error (.InvalidParameter ("Input directory does not exist: " ++ input_dir))
  else if !env.isDir input_dir then
    .error (.InvalidParameter ("Input path is not a directory: " ++ input_dir))
  else if env.exists_ output_dir ∧ !env.isDir output_dir then
    .error (.InvalidParameter ("Output path exists but is not a directory: " ++ output_dir))
  else if input_dir = output_dir then
    .error (.InvalidParameter "Input and output directories cannot be the same")
  else
    .ok ()

/-- `processors/batch.rs`: `BatchProcessor::collect_image_paths`.  The walk
itself (`WalkDir`, depth 1 when non-recursive, file entries only) is behind
the `env.walkFiles` boundary; the extension filter is the repository's. -/
def BatchProcessor.collect_image_paths (env : Env) (input_dir : String) (recursive : Bool) :
    List String :=
  (env.walkFiles input_dir recursive).filter fun p =>
    match fileExtension p with
    | some ext => image_extensions.contains (strToLower ext)
    | none => false

/-- `processors/batch.rs`: `BatchProcessor::process_single_image_in_batch`.
`Path::file_name` returning `None` is modelled by an empty last component,
and `output_dir.join(file_name)` by `/`-concatenation. -/
def BatchProcessor.process_single_image_in_batch (self : BatchProcessor) (env : Env)
    (input_path output_dir : String) : Except ImageToolError ProcessingStats :=
  let file_name := lastComponent input_path
  if file_name = "" then
    .error (.InvalidParameter ("Invalid file name: " ++ input_path))
  else
    let output_path := output_dir ++ "/" ++ file_name
    (ImageProcessor.new self.config).process_single env input_path output_path

/-- One step of the result-aggregation loop of
`BatchProcessor::process_directory` (`batch.rs`, lines 100–112). -/
def aggregateStep (stats : ProcessingStats) (result : Except ImageToolError ProcessingStats) :
    ProcessingStats :=
  match result with
  | .ok image_stats =>
      { stats with
        processed_count := stats.processed_count + image_stats.processed_count
        total_size_before := stats.total_size_before + image_stats.total_size_before
        total_size_after := stats.total_size_after + image_stats.total_size_after }
  | .error e =>
      { stats with errors := stats.errors ++ [("Processing error", e.toString)] }

/-- `processors/batch.rs`: `BatchProcessor::process_directory`.
`fs::create_dir_all(output_dir)` is modelled as succeeding, and `rayon`'s
parallel `map`/`collect` over the paths — which gathers every per-item
`Result` in input order without short-circuiting — as `List.map`. -/
def BatchProcessor.process_directory (self : BatchProcessor) (env : Env)
    (input_dir output_dir : String) (recursive : Bool) :
    Except ImageToolError ProcessingStats :=
  match BatchProcessor.validate_paths env input_dir output_dir with
  | .error e => .error e
  | .ok _ =>
    let image_paths := BatchProcessor.collect_image_paths env input_dir recursive
    if image_paths.isEmpty then
      .ok {}
    else
      let results := image_paths.map fun input_path =>
        self.process_single_image_in_batch env input_path output_dir
      .ok (results.foldl aggregateStep {})

/-- The per-item outcomes that succeeded, in order (`Ok` payloads). -/
def oks : List (Except ImageToolError ProcessingStats) → List ProcessingStats
  | [] => []
  | .ok s :: rest => s :: oks rest
  | .error _ :: rest => oks rest

/-- The per-item outcomes that failed, in order (`Err` payloads). -/
def errsOf : List (Except ImageToolError ProcessingStats) → List ImageToolError
  | [] => []
  | .ok _ :: rest => errsOf rest
  | .error e :: rest => e :: errsOf rest

/-- The vector of per-item `Result` values a batch run over `input_dir`
produces: one Single-Item Pipeline outcome per collected input path. -/
def batchResults (b : BatchProcessor) (env : Env) (input_dir output_dir : String)
    (recursive : Bool) : List (Except ImageToolError ProcessingStats) :=
  (BatchProcessor.collect_image_paths env input_dir recursive).map fun p =>
    b.process_single_image_in_batch env p output_dir

/-- Whether an outcome is a `SecurityError`. -/
def isSecurityError : Except ImageToolError ProcessingStats → Bool
  | .error (.SecurityError _) => true
  | _ => false

/-- Demo oracle: a directory `in` holding three decodable-looking image files
of which `in/b.png` carries corrupt pixel data, and an output directory
`out`; encoding always writes 8 bytes. -/
def envDemo : Env :=
  { exists_ := fun p =>
      p == "in" || p == "out" || p == "in/a.png" || p == "in/b.png" || p == "in/c.png"
    isDir := fun p => p == "in" || p == "out"
    size := fun p =>
      if p == "in/a.png" then 10 else if p == "in/b.png" then 12
      else if p == "in/c.png" then 20 else 1
    decode := fun p => if p == "in/b.png" then .error "corrupt" else .ok ⟨4, 2, [7]⟩
    resampleFit := fun img w h => ⟨w, h, img.data⟩
    resampleExact := fun img w h => ⟨w, h, img.data⟩
    detectFormat := fun _ => .ok .Png
    encode := fun _ _ _ _ => .ok 8
    walkFiles := fun d _ => if d == "in" then ["in/a.png", "in/b.png", "in/c.png"] else [] }

/-- Demo oracle: a single 20-byte file `big.jpg` (for the file-size gate). -/
def envBig : Env :=
  { envDemo with
    exists_ := fun p => p == "big.jpg"
    size := fun _ => 20
    decode := fun _ => .ok ⟨4, 2, [7]⟩ }

/-- Demo oracle: a 3-byte file `bomb.png` decoding to a 100001-pixel-wide
buffer (a decompression bomb). -/
def envBomb : Env :=
  { envDemo with
    exists_ := fun p => p == "bomb.png"
    size := fun _ => 3
    decode := fun _ => .ok ⟨100001, 5, []⟩ }

/-- Demo oracle: a 400×200 input `wide.png`; encoding reports the size
`1000*width + height` of the buffer it is handed, making the dimensions of
the encoded buffer observable in the returned stats. -/
def envWide : Env :=
  { envDemo with
    exists_ := fun p => p == "wide.png"
    size := fun _ => 10
    decode := fun _ => .ok ⟨400, 200, []⟩
    encode := fun img _ _ _ => .ok (1000 * img.width + img.height) }

/-- Demo oracle: an existing zero-byte file `empty.png`. -/
def envEmpty : Env :=
  { envDemo with
    exists_ := fun p => p == "empty.png"
    size := fun _ => 0 }

deriving instance DecidableEq for Except

/-! ## Helper lemmas -/

theorem round_mono_rat {x y : ℚ} (h : x ≤ y) : round x ≤ round y := by
  rw [round_eq, round_eq]
  exact Int.floor_le_floor (by linarith)

theorem rnd_le_of_le {q : ℚ} {n : Nat} (h : q ≤ (n : ℚ)) : rnd q ≤ n := by
  have h1 : round q ≤ round ((n : ℚ)) := round_mono_rat h
  rw [round_natCast] at h1
  rw [rnd]
  exact Int.toNat_le.mpr h1

theorem rnd_natCast (n : Nat) : rnd ((n : ℚ)) = n := by
  rw [rnd, round_natCast]
  exact Int.toNat_natCast n

/-! ## C2: aspect-preserving fit inside an absolute box -/

/-- **C2.** With `keep_aspect = true`, positive original dimensions and an
`Absolute(w,h)` box with `w, h > 0`, the computed target dimensions are
`(round(orig_w·ratio), round(orig_h·ratio))` for
`ratio = min (w/orig_w) (h/orig_h)`, each floored to a minimum of 1, and the
result never exceeds `(w, h)` in either dimension. -/
theorem absolute_keep_aspect_fits_box (r : Resizer) (img : Image) (w h : Nat)
    (hk : r.keep_aspect = true)
    (how : 0 < img.width) (hoh : 0 < img.height) (hw : 0 < w) (hh : 0 < h) :
    r.calculate_dimensions img (.Absolute w h)
        = (max (rnd ((img.width : ℚ) *
              min ((w : ℚ) / (img.width : ℚ)) ((h : ℚ) / (img.height : ℚ)))) 1,
           max (rnd ((img.height : ℚ) *
              min ((w : ℚ) / (img.width : ℚ)) ((h : ℚ) / (img.height : ℚ)))) 1)
      ∧ (r.calculate_dimensions img (.Absolute w h)).1 ≤ w
      ∧ (r.calculate_dimensions img (.Absolute w h)).2 ≤ h := by
  have hw0 : w ≠ 0 := Nat.pos_iff_ne_zero.mp hw
  have hh0 : h ≠ 0 := Nat.pos_iff_ne_zero.mp hh
  have howQ : (0 : ℚ) < (img.width : ℚ) := by exact_mod_cast how
  have hohQ : (0 : ℚ) < (img.height : ℚ) := by exact_mod_cast hoh
  have hcalc : r.calculate_dimensions img (.Absolute w h)
      = (max (rnd ((img.width : ℚ) *
            min ((w : ℚ) / (img.width : ℚ)) ((h : ℚ) / (img.height : ℚ)))) 1,
         max (rnd ((img.height : ℚ) *
            min ((w : ℚ) / (img.width : ℚ)) ((h : ℚ) / (img.height : ℚ)))) 1) := by
    simp [Resizer.calculate_dimensions, Resizer.preserve_aspect, hk, hw0, hh0]
  refine ⟨hcalc, ?_, ?_⟩
  · rw [hcalc]
    have hle : (img.width : ℚ) *
        min ((w : ℚ) / (img.width : ℚ)) ((h : ℚ) / (img.height : ℚ)) ≤ (w : ℚ) := by
      calc (img.width : ℚ) * min ((w : ℚ) / (img.width : ℚ)) ((h : ℚ) / (img.height : ℚ))
          ≤ (img.width : ℚ) * ((w : ℚ) / (img.width : ℚ)) :=
            mul_le_mul_of_nonneg_left (min_le_left _ _) howQ.le
        _ = (w : ℚ) := by field_simp
    have := rnd_le_of_le hle
    simp only [Nat.max_le]
    exact ⟨this, hw⟩
  · rw [hcalc]
    have hle : (img.height : ℚ) *
        min ((w : ℚ) / (img.width : ℚ)) ((h : ℚ) / (img.height : ℚ)) ≤ (h : ℚ) := by
      calc (img.height : ℚ) * min ((w : ℚ) / (img.width : ℚ)) ((h : ℚ) / (img.height : ℚ))
          ≤ (img.height : ℚ) * ((h : ℚ) / (img.height : ℚ)) :=
            mul_le_mul_of_nonneg_left (min_le_right _ _) hohQ.le
        _ = (h : ℚ) := by field_simp
    have := rnd_le_of_le hle
    simp only [Nat.max_le]
    exact ⟨this, hh⟩

/-- Witness for C2: a 400×200 original fit into a (100,100) box yields
(100,50), within the box. -/
theorem absolute_keep_aspect_fits_box_witness :
    ((Resizer.new .Lanczos3 true).keep_aspect = true
      ∧ 0 < (Image.mk 400 200 []).width ∧ 0 < (Image.mk 400 200 []).height
      ∧ 0 < 100)
    ∧ ((Resizer.new .Lanczos3 true).calculate_dimensions ⟨400, 200, []⟩ (.Absolute 100 100)).1 ≤ 100
    ∧ ((Resizer.new .Lanczos3 true).calculate_dimensions ⟨400, 200, []⟩ (.Absolute 100 100)).2 ≤ 100
    ∧ (Resizer.new .Lanczos3 true).calculate_dimensions ⟨400, 200, []⟩ (.Absolute 100 100)
        = (100, 50) := by
  refine ⟨⟨rfl, by decide, by decide, by decide⟩,
    (absolute_keep_aspect_fits_box (Resizer.new .Lanczos3 true) ⟨400, 200, []⟩ 100 100 rfl
      (by decide) (by decide) (by decide) (by decide)).2.1,
    (absolute_keep_aspect_fits_box (Resizer.new .Lanczos3 true) ⟨400, 200, []⟩ 100 100 rfl
      (by decide) (by decide) (by decide) (by decide)).2.2, ?_⟩
  rw [Resizer.calculate_dimensions]
  norm_num [Resizer.new, Resizer.preserve_aspect, rnd, round_eq]
  decide

/-! ## C8: percentage scaling -/

/-- **C8.** For `Scale(p)`: `p ≤ 0` is a no-op returning the original
dimensions; `p > 0` yields `(round(orig_w·p/100), round(orig_h·p/100))`, each
at least 1 (rounding half away from zero, which on these non-negative values
is `round`). -/
theorem scale_mode_dimensions (r : Resizer) (img : Image) (p : ℚ) :
    (p ≤ 0 → r.calculate_dimensions img (.Scale p) = (img.width, img.height)) ∧
    (0 < p → r.calculate_dimensions img (.Scale p)
        = (max (rnd ((img.width : ℚ) * p / 100)) 1,
           max (rnd ((img.height : ℚ) * p / 100)) 1)) := by
  constructor
  · intro hp
    simp [Resizer.calculate_dimensions, hp]
  · intro hp
    simp [Resizer.calculate_dimensions, not_le.mpr hp]

/-- Witness for C8: `Scale(50)` on a 400×200 original yields (200,100), and
`Scale(-5)` is a no-op. -/
theorem scale_mode_dimensions_witness :
    ((-5 : ℚ) ≤ 0
      ∧ (Resizer.new .Lanczos3 true).calculate_dimensions ⟨400, 200, []⟩ (.Scale (-5))
          = ((Image.mk 400 200 []).width, (Image.mk 400 200 []).height))
    ∧ ((0 : ℚ) < 50
      ∧ (Resizer.new .Lanczos3 true).calculate_dimensions ⟨400, 200, []⟩ (.Scale 50)
          = (max (rnd (((Image.mk 400 200 []).width : ℚ) * 50 / 100)) 1,
             max (rnd (((Image.mk 400 200 []).height : ℚ) * 50 / 100)) 1))
    ∧ (Resizer.new .Lanczos3 true).calculate_dimensions ⟨400, 200, []⟩ (.Scale 50)
        = (200, 100) := by
  refine ⟨⟨by norm_num, (scale_mode_dimensions (Resizer.new .Lanczos3 true) ⟨400, 200, []⟩
      (-5)).1 (by norm_num)⟩,
    ⟨by norm_num, (scale_mode_dimensions (Resizer.new .Lanczos3 true) ⟨400, 200, []⟩
      50).2 (by norm_num)⟩, ?_⟩
  rw [Resizer.calculate_dimensions]
  norm_num [Resizer.new, rnd, round_eq]
  decide

/-! ## C5: pass-through when the target equals the current dimensions -/

/-- **C5.** Whenever the computed target dimensions equal the image's current
dimensions, `Resizer::resize` returns the image unchanged without invoking
either resample oracle (the equality holds for every oracle); in particular
resizing an image with positive dimensions to its own current dimensions is
the identity on the buffer. -/
theorem resize_passthrough (r : Resizer) (fit exact : Image → Nat → Nat → Image) (img : Image) :
    (∀ mode, r.calculate_dimensions img mode = (img.width, img.height) →
        r.resize fit exact img mode = img) ∧
    (0 < img.width → 0 < img.height →
        r.resize fit exact img (.Absolute img.width img.height) = img) := by
  have main : ∀ mode, r.calculate_dimensions img mode = (img.width, img.height) →
      r.resize fit exact img mode = img := by
    intro mode hdim
    rw [Resizer.resize]
    simp [hdim]
  refine ⟨main, fun how hoh => main _ ?_⟩
  have hw0 : img.width ≠ 0 := Nat.pos_iff_ne_zero.mp how
  have hh0 : img.height ≠ 0 := Nat.pos_iff_ne_zero.mp hoh
  cases hk : r.keep_aspect with
  | false => simp [Resizer.calculate_dimensions, hk]
  | true =>
      have howQ : ((img.width : ℚ)) ≠ 0 := Nat.cast_ne_zero.mpr hw0
      have hohQ : ((img.height : ℚ)) ≠ 0 := Nat.cast_ne_zero.mpr hh0
      simp [Resizer.calculate_dimensions, Resizer.preserve_aspect, hk, hw0, hh0,
        div_self howQ, div_self hohQ, rnd_natCast, max_eq_left how, max_eq_left hoh]

/-- Witness for C5: a `Scale(100)` pass on a 400×200 buffer computes the
original dimensions and returns the buffer untouched, as does resizing to the
buffer's own `Absolute(400,200)`. -/
theorem resize_passthrough_witness :
    ((Resizer.new .Lanczos3 true).calculate_dimensions ⟨400, 200, [1, 2, 3]⟩ (.Scale 100)
        = ((Image.mk 400 200 [1, 2, 3]).width, (Image.mk 400 200 [1, 2, 3]).height))
    ∧ (Resizer.new .Lanczos3 true).resize (fun img w h => ⟨w, h, img.data⟩)
        (fun img w h => ⟨w, h, img.data⟩) ⟨400, 200, [1, 2, 3]⟩ (.Scale 100)
        = ⟨400, 200, [1, 2, 3]⟩
    ∧ (0 < (Image.mk 400 200 [1, 2, 3]).width ∧ 0 < (Image.mk 400 200 [1, 2, 3]).height)
    ∧ (Resizer.new .Lanczos3 true).resize (fun img w h => ⟨w, h, img.data⟩)
        (fun img w h => ⟨w, h, img.data⟩) ⟨400, 200, [1, 2, 3]⟩
        (.Absolute (Image.mk 400 200 [1, 2, 3]).width (Image.mk 400 200 [1, 2, 3]).height)
        = ⟨400, 200, [1, 2, 3]⟩ := by
  have hdim : (Resizer.new .Lanczos3 true).calculate_dimensions ⟨400, 200, [1, 2, 3]⟩ (.Scale 100)
      = (400, 200) := by
    rw [Resizer.calculate_dimensions]
    norm_num [Resizer.new, rnd, round_eq]
    decide
  exact ⟨hdim,
    (resize_passthrough _ _ _ _).1 _ hdim,
    ⟨by decide, by decide⟩,
    (resize_passthrough _ _ _ _).2 (by decide) (by decide)⟩

/-! ## C3: resize-mode precedence and the pipeline's single-axis behaviour -/

/-- **C3 counterexample.** The claim says the pipeline's resize behaviour for
a width-only config matches the single-axis `Width(w)` semantics (height
scaled proportionally) regardless of `keep_aspect`.  The pipeline derives the
mode as `Absolute(width, height)` whenever `scale ≤ 0` (`process_single`,
`processor.rs` lines 61–69), and with config `width=100, height=0, scale=0,
keep_aspect=false` on a 400×200 input the buffer handed to the encoder is
100×200 (observable as `total_size_after = 1000·100 + 200`), whereas
`Width(100)` semantics demands 100×50. -/
theorem width_only_keep_aspect_false_counterexample :
    (ImageProcessor.new
        { ProcessConfig.base with width := 100, keep_aspect := false }).process_single
        envWide "wide.png" "out.png"
      = .ok { processed_count := 1, total_size_before := 10, total_size_after := 100200,
              errors := [] }
    ∧ (Resizer.new .Lanczos3 false).calculate_dimensions ⟨400, 200, []⟩ (.Absolute 100 0)
        = (100, 200)
    ∧ (Resizer.new .Lanczos3 false).calculate_dimensions ⟨400, 200, []⟩ (.Width 100)
        = (100, 50) := by
  refine ⟨by decide, by decide, ?_⟩
  rw [Resizer.calculate_dimensions]
  norm_num [Resizer.new, rnd, round_eq]
  decide

/-- **C3 (amended).** `calculate_mode_from_config` follows the fixed
precedence scale > both-dimensions > width-only > height-only > no-op.  The
pipeline itself derives the mode as `Scale(scale)` when `scale > 0` and
`Absolute(width, height)` otherwise; for a width-only or height-only config
the resulting dimensions coincide with the single-axis `Width`/`Height`
semantics when `keep_aspect = true`, but not when `keep_aspect = false`
(see the counterexample), where the unset axis keeps its original size. -/
theorem mode_precedence_and_single_axis (w h : Nat) (s : ℚ) (r : Resizer) (img : Image) :
    (0 < s → Resizer.calculate_mode_from_config w h s = .Scale s) ∧
    (s ≤ 0 → 0 < w → 0 < h → Resizer.calculate_mode_from_config w h s = .Absolute w h) ∧
    (s ≤ 0 → 0 < w → h = 0 → Resizer.calculate_mode_from_config w h s = .Width w) ∧
    (s ≤ 0 → w = 0 → 0 < h → Resizer.calculate_mode_from_config w h s = .Height h) ∧
    (s ≤ 0 → w = 0 → h = 0 → Resizer.calculate_mode_from_config w h s = .Absolute 0 0) ∧
    (r.keep_aspect = true → 0 < img.width → 0 < img.height →
        r.calculate_dimensions img (.Absolute w 0) = r.calculate_dimensions img (.Width w) ∧
        r.calculate_dimensions img (.Absolute 0 h) = r.calculate_dimensions img (.Height h)) := by
  refine ⟨?_, ?_, ?_, ?_, ?_, ?_⟩
  · intro hs
    simp [Resizer.calculate_mode_from_config, hs]
  · intro hs hwp hhp
    simp [Resizer.calculate_mode_from_config, not_lt.mpr hs, hwp, hhp]
  · intro hs hwp hhz
    subst hhz
    simp [Resizer.calculate_mode_from_config, not_lt.mpr hs, hwp]
  · intro hs hwz hhp
    subst hwz
    simp [Resizer.calculate_mode_from_config, not_lt.mpr hs, hhp]
  · intro hs hwz hhz
    subst hwz; subst hhz
    simp [Resizer.calculate_mode_from_config, not_lt.mpr hs]
  · intro hk how hoh
    have hw0 : img.width ≠ 0 := Nat.pos_iff_ne_zero.mp how
    have hh0 : img.height ≠ 0 := Nat.pos_iff_ne_zero.mp hoh
    have howQ : ((img.width : ℚ)) ≠ 0 := Nat.cast_ne_zero.mpr hw0
    have hohQ : ((img.height : ℚ)) ≠ 0 := Nat.cast_ne_zero.mpr hh0
    constructor
    · by_cases hwz : w = 0
      · subst hwz
        simp [Resizer.calculate_dimensions, hk]
      · by_cases hww : w = img.width
        · subst hww
          simp [Resizer.calculate_dimensions, Resizer.preserve_aspect, hk, hw0,
            div_self howQ, rnd_natCast, max_eq_left hoh]
        · simp [Resizer.calculate_dimensions, Resizer.preserve_aspect, hk, hwz, hww]
    · by_cases hhz : h = 0
      · subst hhz
        simp [Resizer.calculate_dimensions, hk]
      · by_cases hhh : h = img.height
        · subst hhh
          simp [Resizer.calculate_dimensions, Resizer.preserve_aspect, hk, hh0,
            div_self hohQ, rnd_natCast, max_eq_left how]
        · simp [Resizer.calculate_dimensions, Resizer.preserve_aspect, hk, hhz, hhh]

/-- Witness for the amended C3, exercising every precedence case and the
width-only / height-only equivalence at `keep_aspect = true` on 400×200. -/
theorem mode_precedence_and_single_axis_witness :
    ((0 : ℚ) < 7 ∧ Resizer.calculate_mode_from_config 10 20 7 = .Scale 7)
    ∧ (Resizer.calculate_mode_from_config 10 20 0 = .Absolute 10 20)
    ∧ (Resizer.calculate_mode_from_config 10 0 0 = .Width 10)
    ∧ (Resizer.calculate_mode_from_config 0 20 0 = .Height 20)
    ∧ (Resizer.calculate_mode_from_config 0 0 0 = .Absolute 0 0)
    ∧ ((Resizer.new .Lanczos3 true).keep_aspect = true
        ∧ 0 < (Image.mk 400 200 []).width ∧ 0 < (Image.mk 400 200 []).height)
    ∧ (Resizer.new .Lanczos3 true).calculate_dimensions ⟨400, 200, []⟩ (.Absolute 100 0)
        = (Resizer.new .Lanczos3 true).calculate_dimensions ⟨400, 200, []⟩ (.Width 100) := by
  refine ⟨⟨by norm_num, (mode_precedence_and_single_axis 10 20 7 (Resizer.new .Lanczos3 true)
      ⟨400, 200, []⟩).1 (by norm_num)⟩,
    (mode_precedence_and_single_axis 10 20 0 (Resizer.new .Lanczos3 true)
      ⟨400, 200, []⟩).2.1 (by norm_num) (by decide) (by decide),
    (mode_precedence_and_single_axis 10 0 0 (Resizer.new .Lanczos3 true)
      ⟨400, 200, []⟩).2.2.1 (by norm_num) (by decide) (by decide),
    (mode_precedence_and_single_axis 0 20 0 (Resizer.new .Lanczos3 true)
      ⟨400, 200, []⟩).2.2.2.1 (by norm_num) (by decide) (by decide),
    (mode_precedence_and_single_axis 0 0 0 (Resizer.new .Lanczos3 true)
      ⟨400, 200, []⟩).2.2.2.2.1 (by norm_num) (by decide) (by decide),
    ⟨rfl, by decide, by decide⟩,
    ((mode_precedence_and_single_axis 100 100 0 (Resizer.new .Lanczos3 true)
      ⟨400, 200, []⟩).2.2.2.2.2 rfl (by decide) (by decide)).1⟩

/-! ## Batch aggregation lemmas -/

/-- Closed form of the aggregation fold: counts and byte totals are the sums
over the successful outcomes, and each failure appends one
`("Processing error", e.to_string())` record, in order. -/
theorem foldl_aggregateStep_closed (rs : List (Except ImageToolError ProcessingStats))
    (init : ProcessingStats) :
    rs.foldl aggregateStep init =
      { processed_count :=
          init.processed_count + ((oks rs).map ProcessingStats.processed_count).sum
        total_size_before :=
          init.total_size_before + ((oks rs).map ProcessingStats.total_size_before).sum
        total_size_after :=
          init.total_size_after + ((oks rs).map ProcessingStats.total_size_after).sum
        errors := init.errors ++ (errsOf rs).map fun e => ("Processing error", e.toString) } := by
  induction rs generalizing init with
  | nil => simp [oks, errsOf]
  | cons r t ih =>
      cases r with
      | ok a =>
          rw [List.foldl_cons, ih]
          simp [aggregateStep, oks, errsOf, add_assoc]
      | error e =>
          rw [List.foldl_cons, ih]
          simp [aggregateStep, oks, errsOf]

theorem oks_length_add_errsOf_length (rs : List (Except ImageToolError ProcessingStats)) :
    (oks rs).length + (errsOf rs).length = rs.length := by
  induction rs with
  | nil => rfl
  | cons r t ih => cases r <;> simp [oks, errsOf] <;> omega

theorem mem_of_mem_oks {rs : List (Except ImageToolError ProcessingStats)}
    {s : ProcessingStats} (h : s ∈ oks rs) : Except.ok s ∈ rs := by
  induction rs with
  | nil => simp [oks] at h
  | cons r t ih =>
      cases r with
      | ok a =>
          simp only [oks, List.mem_cons] at h
          rcases h with h1 | h2
          · subst h1; exact List.mem_cons_self _ _
          · exact List.mem_cons_of_mem _ (ih h2)
      | error e =>
          simp only [oks] at h
          exact List.mem_cons_of_mem _ (ih h)

theorem sum_map_processed_count_ones {l : List ProcessingStats}
    (h : ∀ x ∈ l, x.processed_count = 1) :
    (l.map ProcessingStats.processed_count).sum = l.length := by
  induction l with
  | nil => rfl
  | cons a t ih =>
      simp [h a (List.mem_cons_self a t), ih fun x hx => h x (List.mem_cons_of_mem _ hx)]
      omega

/-- `process_single` either fails or returns a stats record with exactly one
processed item, the input and output byte sizes, and no failure records. -/
theorem process_single_shape (p : ImageProcessor) (env : Env) (inp outp : String) :
    (∃ e, p.process_single env inp outp = .error e) ∨
    (∃ after, p.process_single env inp outp
        = .ok ⟨1, env.size inp, after, []⟩) := by
  simp only [ImageProcessor.process_single]
  repeat' split
  all_goals simp

/-- A successful `process_single` always reports exactly one processed item
and an empty per-item failure list. -/
theorem process_single_ok_stats (p : ImageProcessor) (env : Env) (inp outp : String)
    (s : ProcessingStats) (h : p.process_single env inp outp = .ok s) :
    s.processed_count = 1 ∧ s.errors = [] := by
  rcases process_single_shape p env inp outp with ⟨e, he⟩ | ⟨after, hok⟩
  · rw [he] at h
    cases h
  · rw [hok] at h
    cases h
    exact ⟨rfl, rfl⟩

/-- A successful batch item always reports exactly one processed item and an
empty per-item failure list. -/
theorem batch_item_ok_stats (b : BatchProcessor) (env : Env) (inp outd : String)
    (s : ProcessingStats) (h : b.process_single_image_in_batch env inp outd = .ok s) :
    s.processed_count = 1 ∧ s.errors = [] := by
  simp only [BatchProcessor.process_single_image_in_batch] at h
  split at h
  · cases h
  · exact process_single_ok_stats _ _ _ _ _ h

/-- After successful validation, `process_directory` returns `Ok` of the fold
of all per-item results (also in the zero-file degenerate case, where the
fold is over the empty list). -/
theorem process_directory_ok_of_validate (b : BatchProcessor) (env : Env)
    (din dout : String) (recursive : Bool)
    (hv : BatchProcessor.validate_paths env din dout = .ok ()) :
    b.process_directory env din dout recursive
      = .ok ((batchResults b env din dout recursive).foldl aggregateStep {}) := by
  unfold BatchProcessor.process_directory
  rw [hv]
  simp only [batchResults]
  split
  · next hempty =>
      rw [List.isEmpty_iff] at hempty
      rw [hempty]
      rfl
  · rfl

/-! ## C1: batch failure isolation and aggregate shape -/

/-- **C1.** Over the `N` collected input files of a validated batch run,
`process_directory` returns `Ok` of the fold of all per-item results (never a
fail-fast short-circuit): with `k` failing items the aggregate has
`processed_count = N - k`, a failure list of length `k`, and byte totals that
are the sums over the `N - k` successful items. -/
theorem process_directory_failure_isolation (b : BatchProcessor) (env : Env)
    (din dout : String) (recursive : Bool)
    (hv : BatchProcessor.validate_paths env din dout = .ok ()) :
    b.process_directory env din dout recursive
        = .ok ((batchResults b env din dout recursive).foldl aggregateStep {})
    ∧ ((batchResults b env din dout recursive).foldl aggregateStep {}).processed_count
        = (BatchProcessor.collect_image_paths env din recursive).length
          - (errsOf (batchResults b env din dout recursive)).length
    ∧ ((batchResults b env din dout recursive).foldl aggregateStep {}).errors.length
        = (errsOf (batchResults b env din dout recursive)).length
    ∧ ((batchResults b env din dout recursive).foldl aggregateStep {}).total_size_before
        = ((oks (batchResults b env din dout recursive)).map ProcessingStats.total_size_before).sum
    ∧ ((batchResults b env din dout recursive).foldl aggregateStep {}).total_size_after
        = ((oks (batchResults b env din dout recursive)).map
            ProcessingStats.total_size_after).sum := by
  have hones : ∀ x ∈ oks (batchResults b env din dout recursive), x.processed_count = 1 := by
    intro x hx
    have hmem : Except.ok x ∈ batchResults b env din dout recursive := mem_of_mem_oks hx
    simp only [batchResults, List.mem_map] at hmem
    obtain ⟨p, _, hp⟩ := hmem
    exact (batch_item_ok_stats _ _ _ _ _ hp).1
  have hlen : (batchResults b env din dout recursive).length
      = (BatchProcessor.collect_image_paths env din recursive).length := by
    simp [batchResults]
  refine ⟨process_directory_ok_of_validate b env din dout recursive hv, ?_, ?_, ?_, ?_⟩
  · rw [foldl_aggregateStep_closed]
    have hsum := sum_map_processed_count_ones hones
    have hadd := oks_length_add_errsOf_length (batchResults b env din dout recursive)
    simp only at hsum hadd ⊢
    omega
  · rw [foldl_aggregateStep_closed]
    simp
  · rw [foldl_aggregateStep_closed]
    simp
  · rw [foldl_aggregateStep_closed]
    simp

/-- Witness for C1 on the demo batch: three collected files, one decode
failure, aggregate `Ok` with `processed_count = 2`, one failure record,
and byte totals 30 → 16 summed over the two successes. -/
theorem process_directory_failure_isolation_witness :
    BatchProcessor.validate_paths envDemo "in" "out" = .ok ()
    ∧ (BatchProcessor.new ProcessConfig.base 0).process_directory envDemo "in" "out" false
        = .ok ((batchResults (BatchProcessor.new ProcessConfig.base 0) envDemo "in" "out"
            false).foldl aggregateStep {})
    ∧ (BatchProcessor.new ProcessConfig.base 0).process_directory envDemo "in" "out" false
        = .ok { processed_count := 2, total_size_before := 30, total_size_after := 16,
                errors := [("Processing error",
                  "Processing error: Failed to decode image: corrupt")] }
    ∧ (BatchProcessor.collect_image_paths envDemo "in" false).length = 3
    ∧ (errsOf (batchResults (BatchProcessor.new ProcessConfig.base 0) envDemo "in" "out"
        false)).length = 1 :=
  ⟨by decide,
   (process_directory_failure_isolation (BatchProcessor.new ProcessConfig.base 0) envDemo
      "in" "out" false (by decide)).1,
   by decide, by decide, by decide⟩

/-! ## C4: the shape of batch failure records -/

/-- **C4 counterexample.** The claim says each failure record identifies
which input failed.  In the code the record's context component is the
constant string `"Processing error"` and its message is the error's display
string, which for a decode failure does not name the input: in the demo batch
the failing input is `in/b.png`, yet neither component of the produced record
mentions `b.png` at all. -/
theorem batch_error_record_counterexample :
    (BatchProcessor.new ProcessConfig.base 0).process_directory envDemo "in" "out" false
      = .ok { processed_count := 2, total_size_before := 30, total_size_after := 16,
              errors := [("Processing error",
                "Processing error: Failed to decode image: corrupt")] }
    ∧ strContains "b.png" "Processing error" = false
    ∧ strContains "b.png" "Processing error: Failed to decode image: corrupt" = false := by
  refine ⟨by decide, by decide, by decide⟩

/-- **C4 (amended).** Each failure record appended to the aggregate's errors
list is the `(context, message)` pair
`("Processing error", e.to_string())` for the item's error `e`, in item
order: the message states why the item failed, but the context is a constant
label and the record need not name which input failed. -/
theorem batch_failure_records_shape (b : BatchProcessor) (env : Env) (din dout : String)
    (recursive : Bool) (hv : BatchProcessor.validate_paths env din dout = .ok ())
    (agg : ProcessingStats) (h : b.process_directory env din dout recursive = .ok agg) :
    agg.errors = (errsOf (batchResults b env din dout recursive)).map
        fun e => ("Processing error", ImageToolError.toString e) := by
  rw [process_directory_ok_of_validate b env din dout recursive hv] at h
  cases h
  rw [foldl_aggregateStep_closed]
  simp

/-- Witness for the amended C4 on the demo batch. -/
theorem batch_failure_records_shape_witness :
    BatchProcessor.validate_paths envDemo "in" "out" = .ok ()
    ∧ (BatchProcessor.new ProcessConfig.base 0).process_directory envDemo "in" "out" false
        = .ok { processed_count := 2, total_size_before := 30, total_size_after := 16,
                errors := [("Processing error",
                  "Processing error: Failed to decode image: corrupt")] }
    ∧ ({ processed_count := 2, total_size_before := 30, total_size_after := 16,
         errors := [("Processing error",
           "Processing error: Failed to decode image: corrupt")] } : ProcessingStats).errors
        = (errsOf (batchResults (BatchProcessor.new ProcessConfig.base 0) envDemo "in" "out"
            false)).map fun e => ("Processing error", ImageToolError.toString e) :=
  ⟨by decide, by decide,
   batch_failure_records_shape (BatchProcessor.new ProcessConfig.base 0) envDemo "in" "out"
     false (by decide) _ (by decide)⟩

/-! ## C6: the two `MemoryLimitExceeded` gates -/

/-- **C6.** (1) With `max_file_size = Some m` and an input file larger than
`m`, `process_single` fails with `MemoryLimitExceeded` whose message is
computed from the file size alone — the hypotheses constrain only the
`exists_`/`size` oracles, so the outcome is the same for every decode oracle:
no decode is attempted.  (2) Independently, when a decode succeeds with a
buffer wider or taller than the 100,000-pixel axis gate of `Loader::new`,
`load` fails with `MemoryLimitExceeded`. -/
theorem memory_limit_gates (env : Env) :
    (∀ (config : ProcessConfig) (inp outp : String) (max_size : Nat),
        config.max_file_size = some max_size →
        hasDotDot inp = false → hasDotDot outp = false →
        env.exists_ inp = true →
        env.size inp > max_size →
        (ImageProcessor.new config).process_single env inp outp
          = .error (.MemoryLimitExceeded
              ("File size " ++ toString (env.size inp) ++ " exceeds limit "
                ++ toString max_size))) ∧
    (∀ (path : String) (img : Image),
        env.exists_ path = true → env.size path ≠ 0 →
        env.decode path = .ok img →
        img.width > 100000 ∨ img.height > 100000 →
        Loader.new.load env path
          = .error (.MemoryLimitExceeded
              ("Image dimensions " ++ toString img.width ++ "x" ++ toString img.height
                ++ " exceed maximum " ++ toString 100000 ++ "x" ++ toString 100000))) := by
  constructor
  · intro config inp outp max_size hmax h1 h2 hex hsz
    simp only [ImageProcessor.process_single, ImageProcessor.validate_paths,
      ImageProcessor.new, h1, h2, hex, hmax]
    simp [hsz]
  · intro path img hex hsz hdec hdim
    simp only [Loader.load, Loader.validate_path, Loader.new, hex, hsz, hdec]
    simp [hsz, hdim]

/-- Witness for C6: a 20-byte `big.jpg` against a 10-byte limit trips the
pre-decode size gate, and a 3-byte `bomb.png` decoding to a 100001-pixel-wide
buffer trips the post-decode dimension gate. -/
theorem memory_limit_gates_witness :
    (({ ProcessConfig.base with max_file_size := some 10 } : ProcessConfig).max_file_size
        = some 10
      ∧ hasDotDot "big.jpg" = false ∧ hasDotDot "out.jpg" = false
      ∧ envBig.exists_ "big.jpg" = true ∧ envBig.size "big.jpg" > 10)
    ∧ (ImageProcessor.new { ProcessConfig.base with max_file_size := some 10 }).process_single
        envBig "big.jpg" "out.jpg"
        = .error (.MemoryLimitExceeded
            ("File size " ++ toString (envBig.size "big.jpg") ++ " exceeds limit "
              ++ toString 10))
    ∧ (envBomb.exists_ "bomb.png" = true ∧ envBomb.size "bomb.png" ≠ 0
      ∧ envBomb.decode "bomb.png" = .ok ⟨100001, 5, []⟩
      ∧ ((Image.mk 100001 5 []).width > 100000 ∨ (Image.mk 100001 5 []).height > 100000))
    ∧ Loader.new.load envBomb "bomb.png"
        = .error (.MemoryLimitExceeded
            ("Image dimensions " ++ toString (Image.mk 100001 5 []).width ++ "x"
              ++ toString (Image.mk 100001 5 []).height ++ " exceed maximum "
              ++ toString 100000 ++ "x" ++ toString 100000)) :=
  ⟨⟨rfl, by decide, by decide, by decide, by decide⟩,
   (memory_limit_gates envBig).1 { ProcessConfig.base with max_file_size := some 10 }
     "big.jpg" "out.jpg" 10 rfl (by decide) (by decide) (by decide) (by decide),
   ⟨by decide, by decide, by decide, by decide⟩,
   (memory_limit_gates envBomb).2 "bomb.png" ⟨100001, 5, []⟩
     (by decide) (by decide) (by decide) (by decide)⟩

/-! ## C7: immediate rejection of traversal paths -/

/-- **C7.** Any input or output path whose string form contains `..` (in
particular any path containing a parent-directory traversal segment) makes
both `process_single` and `process_directory` return `SecurityError`, and the
result does not depend on the oracle at all — no filesystem read or write is
consulted. -/
theorem path_traversal_rejection :
    (∀ (config : ProcessConfig) (env : Env) (inp outp : String),
        (hasDotDot inp || hasDotDot outp) = true →
        isSecurityError ((ImageProcessor.new config).process_single env inp outp) = true ∧
        ∀ env' : Env, (ImageProcessor.new config).process_single env inp outp
            = (ImageProcessor.new config).process_single env' inp outp) ∧
    (∀ (b : BatchProcessor) (env : Env) (din dout : String) (recursive : Bool),
        (hasDotDot din || hasDotDot dout) = true →
        isSecurityError (b.process_directory env din dout recursive) = true ∧
        ∀ env' : Env, b.process_directory env din dout recursive
            = b.process_directory env' din dout recursive) := by
  constructor
  · intro config env inp outp hdot
    by_cases h1 : hasDotDot inp = true
    · constructor
      · simp [ImageProcessor.process_single, ImageProcessor.validate_paths, h1,
          isSecurityError]
      · intro env'
        simp [ImageProcessor.process_single, ImageProcessor.validate_paths, h1]
    · have h2 : hasDotDot outp = true := by
        cases hx : hasDotDot inp <;> cases hy : hasDotDot outp <;> simp_all
      have h1' : hasDotDot inp = false := by
        cases hx : hasDotDot inp <;> simp_all
      constructor
      · simp [ImageProcessor.process_single, ImageProcessor.validate_paths, h1', h2,
          isSecurityError]
      · intro env'
        simp [ImageProcessor.process_single, ImageProcessor.validate_paths, h1', h2]
  · intro b env din dout recursive hdot
    by_cases h1 : hasDotDot din = true
    · constructor
      · simp [BatchProcessor.process_directory, BatchProcessor.validate_paths, h1,
          isSecurityError]
      · intro env'
        simp [BatchProcessor.process_directory, BatchProcessor.validate_paths, h1]
    · have h2 : hasDotDot dout = true := by
        cases hx : hasDotDot din <;> cases hy : hasDotDot dout <;> simp_all
      have h1' : hasDotDot din = false := by
        cases hx : hasDotDot din <;> simp_all
      constructor
      · simp [BatchProcessor.process_directory, BatchProcessor.validate_paths, h1', h2,
          isSecurityError]
      · intro env'
        simp [BatchProcessor.process_directory, BatchProcessor.validate_paths, h1', h2]

/-- Witness for C7 on the traversal paths `../etc/img.png` and `../out`. -/
theorem path_traversal_rejection_witness :
    ((hasDotDot "../etc/img.png" || hasDotDot "out.png") = true
      ∧ isSecurityError ((ImageProcessor.new ProcessConfig.base).process_single envDemo
          "../etc/img.png" "out.png") = true
      ∧ (ImageProcessor.new ProcessConfig.base).process_single envDemo
          "../etc/img.png" "out.png"
        = (ImageProcessor.new ProcessConfig.base).process_single envEmpty
          "../etc/img.png" "out.png")
    ∧ ((hasDotDot "in" || hasDotDot "../out") = true
      ∧ isSecurityError ((BatchProcessor.new ProcessConfig.base 0).process_directory envDemo
          "in" "../out" false) = true
      ∧ (BatchProcessor.new ProcessConfig.base 0).process_directory envDemo
          "in" "../out" false
        = (BatchProcessor.new ProcessConfig.base 0).process_directory envEmpty
          "in" "../out" false) :=
  ⟨⟨by decide,
    ((path_traversal_rejection).1 ProcessConfig.base envDemo "../etc/img.png" "out.png"
      (by decide)).1,
    ((path_traversal_rejection).1 ProcessConfig.base envDemo "../etc/img.png" "out.png"
      (by decide)).2 envEmpty⟩,
   ⟨by decide,
    ((path_traversal_rejection).2 (BatchProcessor.new ProcessConfig.base 0) envDemo
      "in" "../out" false (by decide)).1,
    ((path_traversal_rejection).2 (BatchProcessor.new ProcessConfig.base 0) envDemo
      "in" "../out" false (by decide)).2 envEmpty⟩⟩

/-! ## C9: zero-byte inputs -/

/-- **C9.** An existing zero-byte input makes `Loader::load` — and hence
`process_single`, whose file-size gate a size of 0 can never trip — fail with
`InvalidParameter`, for every decode oracle (the decode is never reached). -/
theorem empty_file_rejected (env : Env) (inp outp : String)
    (h1 : hasDotDot inp = false) (h2 : hasDotDot outp = false)
    (hex : env.exists_ inp = true) (hsz : env.size inp = 0) :
    Loader.new.load env inp = .error (.InvalidParameter ("File is empty: " ++ inp)) ∧
    ∀ config : ProcessConfig,
      (ImageProcessor.new config).process_single env inp outp
        = .error (.InvalidParameter ("File is empty: " ++ inp)) := by
  have hload : Loader.new.load env inp
      = .error (.InvalidParameter ("File is empty: " ++ inp)) := by
    simp [Loader.load, Loader.validate_path, hex, hsz]
  refine ⟨hload, fun config => ?_⟩
  simp only [ImageProcessor.process_single, ImageProcessor.validate_paths,
    ImageProcessor.new, h1, h2, hex, hsz]
  cases config.max_file_size <;> simp [hload]

/-- Witness for C9 on the zero-byte `empty.png`, including a config with a
file-size limit set (which a zero-size input can never exceed). -/
theorem empty_file_rejected_witness :
    (hasDotDot "empty.png" = false ∧ hasDotDot "out.png" = false
      ∧ envEmpty.exists_ "empty.png" = true ∧ envEmpty.size "empty.png" = 0)
    ∧ Loader.new.load envEmpty "empty.png"
        = .error (.InvalidParameter ("File is empty: " ++ "empty.png"))
    ∧ (ImageProcessor.new { ProcessConfig.base with max_file_size := some 5 }).process_single
        envEmpty "empty.png" "out.png"
        = .error (.InvalidParameter ("File is empty: " ++ "empty.png")) :=
  ⟨⟨by decide, by decide, by decide, by decide⟩,
   (empty_file_rejected envEmpty "empty.png" "out.png"
     (by decide) (by decide) (by decide) (by decide)).1,
   (empty_file_rejected envEmpty "empty.png" "out.png"
     (by decide) (by decide) (by decide) (by decide)).2
     { ProcessConfig.base with max_file_size := some 5 }⟩

/-! ## C10: metadata stripping is a no-op on the buffer -/

/-- **C10.** `strip_metadata` succeeds on every buffer and path and returns
the buffer unchanged; consequently `process_single` behaves identically with
`strip_metadata = true` and `strip_metadata = false` — in particular the
buffer entering the resize step is the same. -/
theorem strip_metadata_noop :
    (∀ (mp : MetadataProcessor) (img : Image) (path : String),
        mp.strip_metadata img path = .ok img) ∧
    (∀ (config : ProcessConfig) (env : Env) (inp outp : String),
        (ImageProcessor.new { config with strip_metadata := true }).process_single env inp outp
          = (ImageProcessor.new { config with strip_metadata := false }).process_single
              env inp outp) := by
  constructor
  · intro mp img path
    rfl
  · intro config env inp outp
    rfl

end Pixie
